import Mathlib

/-!
Verification of the core of the Bedrock usage dashboard
(`src/bedrock-usage/app.py`): model-id canonicalization, model display
names, pricing lookup, user-identity normalization, the aggregation fold
over CloudWatch Logs Insights result records, the cost-matrix builder,
and the query-start/cache behavior of `get_bedrock_usage`.

Numeric aggregation is modelled over `ℚ` (exact arithmetic standing in
for Python floats); strings are modelled as `String` with the character
work done on `List Char`.
-/

namespace Dashboards

/-! ### Generic string utilities (List Char level) -/

/-- Split `s` at the first occurrence of `needle`, returning the part
before and the part after the occurrence.  Models Python
`s.split(needle, 1)` when the needle occurs (`some (pre, post)` with
`s = pre ++ needle ++ post` for the leftmost occurrence), and `none`
when `needle` does not occur in `s`. -/
def findSplit (needle : List Char) : List Char → Option (List Char × List Char)
  | [] => if needle = [] then some ([], []) else none
  | c :: rest =>
    if needle.isPrefixOf (c :: rest) then some ([], (c :: rest).drop needle.length)
    else
      match findSplit needle rest with
      | some (pre, post) => some (c :: pre, post)
      | none => none

/-- Models the Python substring test `needle in hay`. -/
def subStrL (needle hay : List Char) : Bool :=
  (findSplit needle hay).isSome

/-- Models the Python substring test `needle in hay` on `String`s. -/
def subStr (needle hay : String) : Bool :=
  subStrL needle.data hay.data

/-- Region prefixes stripped by `strip_model_prefix` in app.py
(the Python set `{'us', 'global', 'eu', 'ap'}`). -/
def isRegionSeg (seg : List Char) : Bool :=
  seg = "us".data || seg = "global".data || seg = "eu".data || seg = "ap".data

/-- First step of app.py `strip_model_prefix`: if the id contains
`:inference-profile/`, keep only the suffix after the first occurrence. -/
def stripArnL (s : List Char) : List Char :=
  match findSplit (":inference-profile/".data) s with
  | some (_, post) => post
  | none => s

/-- Second step of app.py `strip_model_prefix`: if the first
dot-delimited segment is a region prefix, drop it (Python
`model_id.split('.', 1)`). -/
def stripRegionL (s : List Char) : List Char :=
  match findSplit ['.'] s with
  | some (pre, post) => if isRegionSeg pre then post else s
  | none => s

/-- Embeds `strip_model_prefix` from app.py (lines 151-174): strip an
inference-profile ARN wrapper, then a region prefix segment. -/
def stripModelId (model_id : String) : String :=
  String.mk (stripRegionL (stripArnL model_id.data))

/-- A model id is in canonical form when it contains no
inference-profile marker and its first dot-delimited segment is not a
region prefix; on such ids `stripModelId` is the identity. -/
def isCleanModelId (s : String) : Bool :=
  !(subStrL (":inference-profile/".data) s.data) &&
    (match findSplit ['.'] s.data with
     | some (pre, _) => !(isRegionSeg pre)
     | none => true)

/-! ### Model display names (`get_model_display_name`, app.py 176-226) -/

/-- Fuel-based worker for `replaceAllL`; each step consumes at least one
character, so fuel equal to the input length always suffices. -/
def replaceAllFuel (needle repl : List Char) : Nat → List Char → List Char
  | 0, s => s
  | _, [] => []
  | fuel + 1, c :: rest =>
    if needle.isPrefixOf (c :: rest) then
      repl ++ replaceAllFuel needle repl fuel (rest.drop (needle.length - 1))
    else
      c :: replaceAllFuel needle repl fuel rest

/-- Models Python `s.replace(needle, repl)` (replace all occurrences,
scanning left to right). -/
def replaceAllL (needle repl s : List Char) : List Char :=
  replaceAllFuel needle repl s.length s

/-- Models Python `re.sub(r'-\d{8}.*$', '', s)`: truncate the string at
the leftmost hyphen that is followed by eight digits. -/
def dropFromDateL : List Char → List Char
  | [] => []
  | c :: rest =>
    if c = '-' ∧ (rest.take 8).length = 8 ∧ (rest.take 8).all Char.isDigit = true then []
    else c :: dropFromDateL rest

/-- Models Python `re.search(r'-\d{8}', s) is not None`: the string
contains a hyphen followed by eight digits. -/
def hasDateL : List Char → Bool
  | [] => false
  | c :: rest =>
    if c = '-' ∧ (rest.take 8).length = 8 ∧ (rest.take 8).all Char.isDigit = true then true
    else hasDateL rest

/-- Matches the 5-character tail `-v<digit>:0`. -/
def verTail5 : List Char → Bool
  | ['-', 'v', d, ':', '0'] => d.isDigit
  | _ => false

/-- Matches the 4-character tail `-<digit>:0`. -/
def verTail4 : List Char → Bool
  | ['-', d, ':', '0'] => d.isDigit
  | _ => false

/-- Models Python `re.sub(r'(-v\d:0|-\d:0)$', '', s)`: drop a trailing
short version suffix. -/
def dropVersionL (s : List Char) : List Char :=
  if verTail5 (s.drop (s.length - 5)) ∧ 5 ≤ s.length then s.take (s.length - 5)
  else if verTail4 (s.drop (s.length - 4)) ∧ 4 ≤ s.length then s.take (s.length - 4)
  else s

/-- Models Python `str.split()` (split on whitespace runs, dropping
empty pieces); `acc` carries the current word reversed. -/
def wordsAux : List Char → List Char → List (List Char)
  | [], acc => if acc = [] then [] else [acc.reverse]
  | c :: rest, acc =>
    if c.isWhitespace then
      (if acc = [] then wordsAux rest [] else acc.reverse :: wordsAux rest [])
    else wordsAux rest (c :: acc)

/-- Models Python `str.capitalize()`: first character upper-cased, the
rest lower-cased. -/
def capitalizeL : List Char → List Char
  | [] => []
  | c :: rest => c.toUpper :: rest.map Char.toLower

/-- Embeds `get_model_display_name` from app.py (lines 176-226):
detect/remove the `[1m]` marker, drop the provider segment before the
first dot, truncate at an 8-digit date suffix (else strip a short
version suffix), turn hyphens/underscores into spaces, capitalize each
word, and re-append ` (1m)` when the marker was present.  The date test
guarding the version-suffix strip runs on the original `model_id`, as
in the source. -/
def get_model_display_name (model_id : String) : String :=
  let clean0 := model_id.data
  let hasExt := subStrL ("[1m]".data) clean0
  let clean1 := if hasExt then replaceAllL ("[1m]".data) [] clean0 else clean0
  let clean2 :=
    match findSplit ['.'] clean1 with
    | some (_, post) => post
    | none => clean1
  let clean3 := dropFromDateL clean2
  let clean4 := if hasDateL model_id.data then clean3 else dropVersionL clean3
  let spaced := clean4.map (fun c => if c = '-' then ' ' else if c = '_' then ' ' else c)
  let disp := List.intercalate [' '] ((wordsAux spaced []).map capitalizeL)
  String.mk (if hasExt then disp ++ (" (1m)".data) else disp)

/-! ### Pricing (`BEDROCK_PRICING`, `get_model_pricing`, app.py 70-249) -/

/-- A row of the static pricing table: USD per million input tokens and
per million output tokens. -/
structure PricingEntry where
  input : ℚ
  output : ℚ
deriving DecidableEq, Repr

/-- Embeds the `BEDROCK_PRICING` dict from app.py (lines 73-115) as an
association list in insertion order (Python dict iteration order). -/
def BEDROCK_PRICING : List (String × PricingEntry) :=
  [ ("anthropic.claude-sonnet-4-5-20250929-v1:0", ⟨33/10, 33/2⟩),
    ("anthropic.claude-sonnet-4-5-20250929-v1:0[1m]", ⟨33/5, 99/4⟩),
    ("anthropic.claude-haiku-4-5-20251001-v1:0", ⟨11/10, 11/2⟩),
    ("anthropic.claude-sonnet-4-20250514-v1:0", ⟨3, 15⟩),
    ("anthropic.claude-3-5-sonnet-20240620-v1:0", ⟨3, 15⟩),
    ("anthropic.claude-3-5-haiku-20241022-v1:0", ⟨1, 5⟩),
    ("anthropic.claude-3-haiku-20240307-v1:0", ⟨1/4, 5/4⟩),
    ("anthropic.claude-opus-4-20250514-v1:0", ⟨15, 75⟩),
    ("anthropic.claude-opus-4-1-20250805-v1:0", ⟨15, 75⟩),
    ("openai.gpt-oss-20b-1:0", ⟨7/100, 3/10⟩),
    ("openai.gpt-oss-120b-1:0", ⟨3/20, 3/5⟩),
    ("deepseek.deepseek-r1", ⟨27/20, 27/5⟩),
    ("deepseek.deepseek-v3.1", ⟨29/50, 42/25⟩),
    ("qwen.qwen3-coder-30b-a3b", ⟨3/20, 3/5⟩),
    ("qwen.qwen3-32b", ⟨3/20, 3/5⟩),
    ("qwen.qwen3-235b-a22b-2507", ⟨11/50, 22/25⟩),
    ("qwen.qwen3-coder-480b-a35b", ⟨11/50, 9/5⟩),
    ("amazon.nova-micro-v1:0", ⟨7/200, 7/800⟩),
    ("amazon.nova-lite-v1:0", ⟨3/50, 3/200⟩),
    ("amazon.nova-pro-v1:0", ⟨4/5, 1/5⟩),
    ("amazon.nova-premier-v1:0", ⟨5/2, 5/8⟩),
    ("default", ⟨0, 0⟩) ]

/-- The partial-match loop body of `get_model_pricing` (app.py 241-245):
for each key in table order, first test the key against the cleaned id
in both substring directions, then against the raw id in both
directions; the first key that matches wins. -/
def firstMatchPricing (clean raw : String) : List (String × PricingEntry) → Option PricingEntry
  | [] => none
  | (k, v) :: rest =>
    if subStr k clean || subStr clean k then some v
    else if subStr k raw || subStr raw k then some v
    else firstMatchPricing clean raw rest

/-- Embeds `get_model_pricing` from app.py (lines 228-249): exact match
on the canonicalized id, exact match on the raw id, the partial-match
loop, then the `default` zero-priced entry. -/
def get_model_pricing (model_id : String) : PricingEntry :=
  let clean := stripModelId model_id
  match BEDROCK_PRICING.lookup clean with
  | some p => p
  | none =>
    match BEDROCK_PRICING.lookup model_id with
    | some p => p
    | none =>
      match firstMatchPricing clean model_id BEDROCK_PRICING with
      | some p => p
      | none => ⟨0, 0⟩

/-- Modelled from the spec (section 4.2 `price`): the lookup cascade as
the spec words it — exact canonical match, exact raw match, substring
match in either direction against table keys in stable table order with
first match winning, then the zero-priced default entry. -/
def pricingSpecMatch (clean raw : String) : List (String × PricingEntry) → Option PricingEntry
  | [] => none
  | (k, v) :: rest =>
    if subStr k clean || subStr clean k || subStr k raw || subStr raw k then some v
    else pricingSpecMatch clean raw rest

/-- Modelled from the spec (section 4.2 `price`): the full spec-side
lookup, to be compared with `get_model_pricing`. -/
def get_model_pricing_spec (model_id : String) : PricingEntry :=
  let clean := stripModelId model_id
  match BEDROCK_PRICING.lookup clean with
  | some p => p
  | none =>
    match BEDROCK_PRICING.lookup model_id with
    | some p => p
    | none =>
      match pricingSpecMatch clean model_id BEDROCK_PRICING with
      | some p => p
      | none => ⟨0, 0⟩

/-! ### User identity normalization (`USER_MAP`, `normalize_username`,
app.py 759-793) -/

/-- Embeds the `USER_MAP` dict from app.py (lines 761-765): primary
username mapped to its list of aliases. -/
def USER_MAP : List (String × List String) :=
  [ ("peterdir", ["aider", "dirkcli"]) ]

/-- The `bedrock-` prefix strip at the top of `normalize_username`
(Python `user[8:]` when `user.startswith('bedrock-')`). -/
def stripBedrock (raw_user : String) : String :=
  if ("bedrock-".data).isPrefixOf raw_user.data then String.mk (raw_user.data.drop 8)
  else raw_user

/-- The alias scan of `normalize_username` (app.py 784-786): the first
primary user whose alias list contains `u`, in table order. -/
def findAliasOwner (u : String) : List (String × List String) → Option String
  | [] => none
  | (primaryUser, aliases) :: rest =>
    if aliases.contains u then some primaryUser else findAliasOwner u rest

/-- Embeds `normalize_username` from app.py (lines 767-793): strip a
`bedrock-` prefix, return a primary key unchanged, map an alias to its
primary key, collapse a remaining name containing `:` or starting with
`arn` to `Other`, and otherwise return the name unchanged. -/
def normalize_username (raw_user : String) : String :=
  let user := stripBedrock raw_user
  if (USER_MAP.lookup user).isSome then user
  else
    match findAliasOwner user USER_MAP with
    | some primaryUser => primaryUser
    | none =>
      if user.data.contains ':' || ("arn".data).isPrefixOf user.data then "Other"
      else user

/-! ### Aggregation engine (`_process_logs_insights_results`,
app.py 893-1068) -/

/-- A raw CloudWatch Logs Insights result row: a list of
`{field, value}` pairs (app.py line 928 turns it into a dict). -/
def ResultRow : Type := List (String × String)

/-- Models the dict comprehension at app.py line 928,
`{field['field']: field['value'] for field in record}`, then `.get`:
for duplicate field names a Python dict keeps the last value. -/
def fieldsOf (r : ResultRow) (k : String) : Option String :=
  (List.reverse r).lookup k

/-- Models Python `int(s)` on an optionally signed decimal string:
`some` of the value when every character after an optional leading `-`
is a digit, `none` (a `ValueError`) otherwise. -/
def parsePyInt (s : String) : Option Int :=
  match s.data with
  | '-' :: rest =>
    if rest ≠ [] ∧ rest.all Char.isDigit = true then
      some (-(Int.ofNat (rest.foldl (fun a c => 10 * a + (c.toNat - '0'.toNat)) 0)))
    else none
  | cs =>
    if cs ≠ [] ∧ cs.all Char.isDigit = true then
      some (Int.ofNat (cs.foldl (fun a c => 10 * a + (c.toNat - '0'.toNat)) 0))
    else none

/-- Models `int(fields.get(k, 0))` (app.py 940-943): an absent field
yields `0`; a present field is parsed, and a parse failure is the
`ValueError` that the surrounding `except` clause turns into a skip. -/
def getIntField (r : ResultRow) (k : String) : Option Int :=
  match fieldsOf r k with
  | none => some 0
  | some s => parsePyInt s

/-- Models the ARN-to-short-name extraction at app.py 949-957:
segment after `user/`, else segment after `assumed-role/`, else `root`
when the ARN contains `:root`, else the raw identity unchanged. -/
def extract_raw_user (user_arn : String) : String :=
  if subStr "user/" user_arn then
    match findSplit ("user/".data) user_arn.data with
    | some (_, post) => String.mk (post.takeWhile (fun c => c ≠ '/'))
    | none => user_arn
  else if subStr "assumed-role/" user_arn then
    match findSplit ("assumed-role/".data) user_arn.data with
    | some (_, post) => String.mk (post.takeWhile (fun c => c ≠ '/'))
    | none => user_arn
  else if subStr ":root" user_arn then "root"
  else user_arn

/-- The aggregation state of `_process_logs_insights_results`
(app.py 898-920): every `defaultdict` is modelled as a total function
that is `0` off its support. -/
structure AggState where
  user_invocations : String → Int
  model_usage : String → Int
  daily_trend : String → Int
  user_tokens_input : String → Int
  user_tokens_output : String → Int
  user_costs : String → ℚ
  model_tokens_input : String → Int
  model_tokens_output : String → Int
  model_costs : String → ℚ
  model_invocations : String → Int
  daily_costs : String → ℚ
  user_daily_costs : String → String → ℚ
  user_model_costs : String → String → ℚ
  user_model_daily_costs : String → String → String → ℚ
  total_events : Int

/-- The empty aggregation state (all defaultdicts fresh, app.py
898-920). -/
def initState : AggState where
  user_invocations := fun _ => 0
  model_usage := fun _ => 0
  daily_trend := fun _ => 0
  user_tokens_input := fun _ => 0
  user_tokens_output := fun _ => 0
  user_costs := fun _ => 0
  model_tokens_input := fun _ => 0
  model_tokens_output := fun _ => 0
  model_costs := fun _ => 0
  model_invocations := fun _ => 0
  daily_costs := fun _ => 0
  user_daily_costs := fun _ _ => 0
  user_model_costs := fun _ _ => 0
  user_model_daily_costs := fun _ _ _ => 0
  total_events := 0

/-- Embeds one iteration of the record loop of
`_process_logs_insights_results` (app.py 926-1006): extract the fields,
skip the record when the identity or model id is absent (read as
`Unknown`) or literally `Unknown`, skip it when an `int(...)` conversion
raises (the caught `ValueError`), and otherwise fold its invocations,
tokens and cost into every aggregate.  Pricing uses the raw model id,
aggregation keys use the canonicalized one, as in the source. -/
def processRecord (st : AggState) (r : ResultRow) : AggState :=
  let user_arn := (fieldsOf r "identity.arn").getD "Unknown"
  let model_id := (fieldsOf r "modelId").getD "Unknown"
  let date_day := (fieldsOf r "date_day").getD "Unknown"
  if user_arn = "Unknown" ∨ model_id = "Unknown" then st
  else
    match getIntField r "invocations", getIntField r "total_input_tokens",
          getIntField r "total_cache_write_tokens", getIntField r "total_output_tokens" with
    | some invocations, some input_tokens, some cache_write_tokens, some output_tokens =>
      let total_input_tokens := input_tokens + cache_write_tokens
      let total_output_tokens := output_tokens
      let user := normalize_username (extract_raw_user user_arn)
      let clean_model_id := stripModelId model_id
      let pricing := get_model_pricing model_id
      let input_cost := ((total_input_tokens : ℚ) / 1000000) * pricing.input
      let output_cost := ((total_output_tokens : ℚ) / 1000000) * pricing.output
      let total_cost := input_cost + output_cost
      { user_invocations := fun k =>
          if k = user then st.user_invocations k + invocations else st.user_invocations k
        model_usage := fun k =>
          if k = clean_model_id then st.model_usage k + invocations else st.model_usage k
        daily_trend := fun k =>
          if k = date_day then st.daily_trend k + invocations else st.daily_trend k
        user_tokens_input := fun k =>
          if k = user then st.user_tokens_input k + total_input_tokens else st.user_tokens_input k
        user_tokens_output := fun k =>
          if k = user then st.user_tokens_output k + total_output_tokens else st.user_tokens_output k
        user_costs := fun k =>
          if k = user then st.user_costs k + total_cost else st.user_costs k
        model_tokens_input := fun k =>
          if k = clean_model_id then st.model_tokens_input k + total_input_tokens
          else st.model_tokens_input k
        model_tokens_output := fun k =>
          if k = clean_model_id then st.model_tokens_output k + total_output_tokens
          else st.model_tokens_output k
        model_costs := fun k =>
          if k = clean_model_id then st.model_costs k + total_cost else st.model_costs k
        model_invocations := fun k =>
          if k = clean_model_id then st.model_invocations k + invocations
          else st.model_invocations k
        daily_costs := fun k =>
          if k = date_day then st.daily_costs k + total_cost else st.daily_costs k
        user_daily_costs := fun k d =>
          if k = user ∧ d = date_day then st.user_daily_costs k d + total_cost
          else st.user_daily_costs k d
        user_model_costs := fun k m =>
          if k = user ∧ m = clean_model_id then st.user_model_costs k m + total_cost
          else st.user_model_costs k m
        user_model_daily_costs := fun k m d =>
          if k = user ∧ m = clean_model_id ∧ d = date_day then
            st.user_model_daily_costs k m d + total_cost
          else st.user_model_daily_costs k m d
        total_events := st.total_events + invocations }
    | _, _, _, _ => st

/-- The whole record loop of `_process_logs_insights_results`
(app.py 926-1006). -/
def processRecords (records : List ResultRow) : AggState :=
  List.foldl processRecord initState records

/-! ### Cost matrix builder (`cost_matrix_api`, app.py 1095-1152) -/

/-- Models Python `round(q, 4)` over exact rationals: multiply by
`10^4`, round to the nearest integer, divide back.  (Python rounds exact
halves to even; `round` here rounds them up — the two agree everywhere
off the half-way ties, and no tie is used in any proof below.) -/
def round4 (q : ℚ) : ℚ :=
  ((round (q * 10000) : ℤ) : ℚ) / 10000

/-- The dense cell matrix of `cost_matrix_api` (app.py 1134-1141):
row per user, column per model, each cell
`round(user_model_costs.get(user, {}).get(model, 0), 4)`.  The cost map
is modelled as a total function that is `0` where the Python dict has
no entry. -/
def cmData (umc : String → String → ℚ) (users models : List String) : List (List ℚ) :=
  users.map fun u => models.map fun m => round4 (umc u m)

/-- The `user_totals` of `cost_matrix_api` (app.py 1136-1142), indexed
like `users`: the un-rounded row sum, rounded once at the end. -/
def cmUserTotals (umc : String → String → ℚ) (users models : List String) : List ℚ :=
  users.map fun u => round4 ((models.map fun m => umc u m).sum)

/-- One column sum of the rounded cell matrix (app.py 1146, the
generator summed for one `model_idx`). -/
def colSum (data : List (List ℚ)) (j : Nat) : ℚ :=
  (data.map fun row => row.getD j 0).sum

/-- The `model_totals` of `cost_matrix_api` (app.py 1144-1147), indexed
like `models`: the column sum of the already-rounded cells, rounded. -/
def cmModelTotals (umc : String → String → ℚ) (users models : List String) : List ℚ :=
  (List.range models.length).map fun j => round4 (colSum (cmData umc users models) j)

/-- The grand sum of all (rounded) matrix cells. -/
def cmGrandSum (umc : String → String → ℚ) (users models : List String) : ℚ :=
  ((cmData umc users models).map List.sum).sum

/-! ### Query cache and query starts (`_query_cache`,
`_get_cached_query_id`, `_cache_query_id`, `get_bedrock_usage`,
app.py 44-68 and 795-856) -/

/-- An entry of `_query_cache` (app.py 61-68). -/
structure CacheEntry where
  query_id : Nat
  status : String
  timestamp : ℚ
deriving DecidableEq

/-- The cache TTL in seconds, `_cache_ttl` (app.py 46). -/
def cacheTtl : ℚ := 600

/-- Embeds `_get_cache_key` (app.py 48-50). -/
def getCacheKey (days : Nat) : String :=
  "bedrock_usage_" ++ toString days

/-- Embeds `_get_cached_query_id` (app.py 52-59), with `time.time()`
passed in as `now`: return the cached entry for the window key when it
is younger than the TTL. -/
def getCachedQueryId (cache : List (String × CacheEntry)) (days : Nat) (now : ℚ) :
    Option CacheEntry :=
  match cache.lookup (getCacheKey days) with
  | some entry => if now - entry.timestamp < cacheTtl then some entry else none
  | none => none

/-- Embeds `_cache_query_id` (app.py 61-68): store a fresh entry under
the window key (a Python dict assignment replaces any old entry). -/
def cacheQueryId (cache : List (String × CacheEntry)) (days : Nat) (qid : Nat)
    (status : String) (now : ℚ) : List (String × CacheEntry) :=
  (getCacheKey days, ⟨qid, status, now⟩) :: cache.filter (fun e => e.1 ≠ getCacheKey days)

/-- The module-level shared state seen by `get_bedrock_usage`: the
`_query_cache` dict plus the external log-query service, abstracted as
a counter handing out fresh query ids (each `start_query` call is one
externally billed query start). -/
structure FetchState where
  cache : List (String × CacheEntry)
  next_query_id : Nat
deriving DecidableEq

/-- Embeds the query-start behavior of `get_bedrock_usage`
(app.py 795-856): the body calls `logs_client.start_query`
unconditionally and contains no call to `_get_cached_query_id` or
`_cache_query_id` — it neither reads nor writes `_query_cache`.  The
returned `Nat` is the id of the query this call started. -/
def getBedrockUsageQueryStart (_days : Nat) (_now : ℚ) (st : FetchState) :
    Nat × FetchState :=
  (st.next_query_id, { cache := st.cache, next_query_id := st.next_query_id + 1 })

/-- The operations on shared state that one call of a fetch function may
perform, for reasoning about concurrent callers. -/
inductive CacheOp where
  | readCache (key : String)
  | writeCache (key : String)
  | startQuery (key : String)
deriving DecidableEq

/-- The trace of shared-state operations of one `get_bedrock_usage`
call (app.py 795-856): exactly one `start_query` for the window key and
no `_query_cache` access at all. -/
def fetchOps (days : Nat) : List CacheOp :=
  [CacheOp.startQuery (getCacheKey days)]

/-- An arbitrary interleaving of the operations of two concurrent
callers: `Interleaving xs ys zs` means `zs` is a merge of `xs` and `ys`
preserving the order within each. -/
inductive Interleaving : List CacheOp → List CacheOp → List CacheOp → Prop where
  | nil : Interleaving [] [] []
  | left {x xs ys zs} : Interleaving xs ys zs → Interleaving (x :: xs) ys (x :: zs)
  | right {y xs ys zs} : Interleaving xs ys zs → Interleaving xs (y :: ys) (y :: zs)

/-- The number of external query starts for a given window key in a
trace. -/
def countStarts (key : String) (l : List CacheOp) : Nat :=
  l.countP fun op =>
    match op with
    | CacheOp.startQuery k => k == key
    | _ => false

/-- The sum of all entries of the user/model cost map over the given
key lists; this is what the upstream `total_cost` equals when the map
and the per-user totals come from the same aggregation pass. -/
def umcTotal (umc : String → String → ℚ) (users models : List String) : ℚ :=
  (users.map fun u => (models.map fun m => umc u m).sum).sum

/-! ### Concrete inputs used by witnesses and counterexamples -/

/-- A well-formed Logs Insights result row: an assumed-role ARN whose
role name is `bedrock-aider`, a region-prefixed Claude 3 Haiku model,
and numeric aggregates `10/1000/0/500`. -/
def rScenario : ResultRow :=
  [("identity.arn", "arn:aws:sts::123456789012:assumed-role/bedrock-aider/session"),
   ("modelId", "us.anthropic.claude-3-haiku-20240307-v1:0"),
   ("date_day", "2025-01-01 00:00:00.000"),
   ("invocations", "10"),
   ("total_input_tokens", "1000"),
   ("total_cache_write_tokens", "0"),
   ("total_output_tokens", "500")]

/-- A result row with the required numeric field `total_input_tokens`
missing entirely (and the other numeric fields present). -/
def rMissingTok : ResultRow :=
  [("identity.arn", "arn:aws:iam::123456789012:user/alice"),
   ("modelId", "m1"),
   ("date_day", "2025-01-02 00:00:00.000"),
   ("invocations", "10"),
   ("total_cache_write_tokens", "0"),
   ("total_output_tokens", "7")]

/-- A result row whose `invocations` field is present but not numeric:
`int("abc")` raises `ValueError` in the source. -/
def rBadNum : ResultRow :=
  [("identity.arn", "arn:aws:iam::123456789012:user/bob"),
   ("modelId", "m2"),
   ("date_day", "2025-01-03 00:00:00.000"),
   ("invocations", "abc"),
   ("total_input_tokens", "5"),
   ("total_cache_write_tokens", "0"),
   ("total_output_tokens", "5")]

/-- A result row with no `identity.arn` field at all. -/
def rNoIdentity : ResultRow :=
  [("modelId", "m3"),
   ("date_day", "2025-01-04 00:00:00.000"),
   ("invocations", "3"),
   ("total_input_tokens", "4"),
   ("total_cache_write_tokens", "0"),
   ("total_output_tokens", "5")]

/-! ### Helper lemmas -/

lemma round4_eq_intCast_div (q : ℚ) : round4 q = ((round (q * 10000) : ℤ) : ℚ) / 10000 := rfl

lemma round4_int_div (k : ℤ) : round4 ((k : ℚ) / 10000) = (k : ℚ) / 10000 := by
  unfold round4
  have h : ((k : ℚ) / 10000) * 10000 = (k : ℚ) := by
    field_simp
  rw [h, round_intCast]

lemma round4_zero : round4 0 = 0 := by
  unfold round4
  norm_num

lemma abs_round4_sub (q : ℚ) : |round4 q - q| ≤ 1 / 20000 := by
  unfold round4
  have h : ((round (q * 10000) : ℤ) : ℚ) / 10000 - q
      = -((q * 10000 - (round (q * 10000) : ℤ)) / 10000) := by ring
  rw [h, abs_neg, abs_div]
  have h2 : |q * 10000 - ((round (q * 10000) : ℤ) : ℚ)| ≤ 1 / 2 := abs_sub_round (q * 10000)
  have h3 : |(10000 : ℚ)| = 10000 := by norm_num
  rw [h3]
  rw [div_le_div_iff₀ (by norm_num) (by norm_num)]
  nlinarith [h2]

/-- A sum of values that are integer multiples of `1/10000` is fixed by
`round4`. -/
lemma round4_sum_fix (l : List ℚ) (h : ∀ x ∈ l, ∃ k : ℤ, x = (k : ℚ) / 10000) :
    round4 l.sum = l.sum := by
  have hsum : ∃ k : ℤ, l.sum = (k : ℚ) / 10000 := by
    induction l with
    | nil => exact ⟨0, by simp⟩
    | cons a t ih =>
      obtain ⟨ka, hka⟩ := h a (List.mem_cons_self a t)
      obtain ⟨kt, hkt⟩ := ih (fun x hx => h x (List.mem_cons_of_mem a hx))
      refine ⟨ka + kt, ?_⟩
      rw [List.sum_cons, hka, hkt]
      push_cast
      ring
  obtain ⟨k, hk⟩ := hsum
  rw [hk, round4_int_div]

/-- Rounding each list entry moves the sum by at most
`length / 20000`. -/
lemma abs_sum_map_round4_sub (l : List ℚ) :
    |(l.map round4).sum - l.sum| ≤ (l.length : ℚ) / 20000 := by
  induction l with
  | nil => simp
  | cons a t ih =>
    simp only [List.map_cons, List.sum_cons, List.length_cons]
    have h1 : round4 a + (t.map round4).sum - (a + t.sum)
        = (round4 a - a) + ((t.map round4).sum - t.sum) := by ring
    rw [h1]
    calc |(round4 a - a) + ((t.map round4).sum - t.sum)|
        ≤ |round4 a - a| + |(t.map round4).sum - t.sum| := abs_add _ _
      _ ≤ 1 / 20000 + (t.length : ℚ) / 20000 := by
          exact add_le_add (abs_round4_sub a) ih
      _ = ((t.length : ℚ) + 1) / 20000 := by ring
      _ = (((t.length : ℕ) + 1 : ℕ) : ℚ) / 20000 := by push_cast; ring

lemma getD_map_of_lt {α β : Type} (f : α → β) (l : List α) (j : Nat) (d : β)
    (h : j < l.length) : (l.map f).getD j d = f l[j] := by
  rw [List.getD_eq_getElem?_getD, List.getElem?_map, List.getElem?_eq_getElem h]
  rfl

lemma getD_map_range_of_lt {β : Type} (f : Nat → β) (n j : Nat) (d : β)
    (h : j < n) : ((List.range n).map f).getD j d = f j := by
  rw [List.getD_eq_getElem?_getD, List.getElem?_map, List.getElem?_range h]
  rfl

lemma getD_eq_default_of_le {α : Type} (l : List α) (j : Nat) (d : α)
    (h : l.length ≤ j) : l.getD j d = d := by
  rw [List.getD_eq_getElem?_getD, List.getElem?_eq_none h]
  rfl

/-- Every entry read out of a column of the rounded cell matrix is an
integer multiple of `1/10000` (a rounded cell, or the `0` default). -/
lemma col_entry_int (umc : String → String → ℚ) (users models : List String) (j : Nat) :
    ∀ x ∈ (cmData umc users models).map (fun row => row.getD j 0),
      ∃ k : ℤ, x = (k : ℚ) / 10000 := by
  intro x hx
  simp only [cmData, List.map_map, List.mem_map, Function.comp] at hx
  obtain ⟨u, _, hxeq⟩ := hx
  by_cases hj : j < models.length
  · have hlen : j < (models.map fun m => round4 (umc u m)).length := by
      simpa using hj
    rw [← hxeq, getD_map_of_lt _ _ _ _ hj]
    exact ⟨round (umc u models[j] * 10000), rfl⟩
  · rw [← hxeq, getD_eq_default_of_le]
    · exact ⟨0, by norm_num⟩
    · simpa using Nat.le_of_not_lt hj

/-- A row of the cell matrix, read by index. -/
lemma cmData_row (umc : String → String → ℚ) (users models : List String) (i : Nat)
    (h : i < users.length) :
    (cmData umc users models).getD i [] = models.map fun m => round4 (umc users[i] m) := by
  unfold cmData
  rw [getD_map_of_lt _ _ _ _ h]

/-- A `user_totals` entry, read by index. -/
lemma cmUserTotals_get (umc : String → String → ℚ) (users models : List String) (i : Nat)
    (h : i < users.length) :
    (cmUserTotals umc users models).getD i 0
      = round4 ((models.map fun m => umc users[i] m).sum) := by
  unfold cmUserTotals
  rw [getD_map_of_lt _ _ _ _ h]

/-- A `model_totals` entry, read by index. -/
lemma cmModelTotals_get (umc : String → String → ℚ) (users models : List String) (j : Nat)
    (h : j < models.length) :
    (cmModelTotals umc users models).getD j 0
      = round4 (colSum (cmData umc users models) j) := by
  unfold cmModelTotals
  rw [getD_map_range_of_lt _ _ _ _ h]

/-- One row of rounded cells stays within `(numModels + 1)/20000` of the
corresponding `user_totals` entry. -/
lemma row_sum_err (umc : String → String → ℚ) (users models : List String) (i : Nat)
    (h : i < users.length) :
    |((cmData umc users models).getD i []).sum
        - (cmUserTotals umc users models).getD i 0|
      ≤ ((models.length : ℚ) + 1) / 20000 := by
  rw [cmData_row _ _ _ _ h, cmUserTotals_get _ _ _ _ h]
  have hmm : (models.map fun m => round4 (umc users[i] m))
      = (models.map fun m => umc users[i] m).map round4 := by
    rw [List.map_map]
    rfl
  rw [hmm]
  have htri := abs_sub_le ((models.map fun m => umc users[i] m).map round4).sum
    (models.map fun m => umc users[i] m).sum
    (round4 (models.map fun m => umc users[i] m).sum)
  have h1 := abs_sum_map_round4_sub (models.map fun m => umc users[i] m)
  have h2 : |(models.map fun m => umc users[i] m).sum
      - round4 (models.map fun m => umc users[i] m).sum| ≤ 1 / 20000 := by
    rw [abs_sub_comm]
    exact abs_round4_sub _
  have hlen : ((models.map fun m => umc users[i] m).length : ℚ) = (models.length : ℚ) := by
    rw [List.length_map]
  calc |((models.map fun m => umc users[i] m).map round4).sum
      - round4 (models.map fun m => umc users[i] m).sum|
      ≤ ((models.map fun m => umc users[i] m).length : ℚ) / 20000 + 1 / 20000 :=
        le_trans htri (add_le_add h1 h2)
    _ = ((models.length : ℚ) + 1) / 20000 := by rw [hlen]; ring

/-- The grand sum of rounded cells stays within
`numUsers * numModels / 20000` of the un-rounded total. -/
lemma grand_sum_err (umc : String → String → ℚ) (users models : List String) :
    |cmGrandSum umc users models - umcTotal umc users models|
      ≤ (users.length : ℚ) * (models.length : ℚ) / 20000 := by
  induction users with
  | nil => simp [cmGrandSum, umcTotal, cmData]
  | cons u t ih =>
    simp only [cmGrandSum, umcTotal, cmData, List.map_cons, List.sum_cons] at ih ⊢
    have hmm : (models.map fun m => round4 (umc u m))
        = (models.map fun m => umc u m).map round4 := by
      rw [List.map_map]
      rfl
    have h1 : |(models.map fun m => round4 (umc u m)).sum
        - (models.map fun m => umc u m).sum| ≤ (models.length : ℚ) / 20000 := by
      rw [hmm]
      have := abs_sum_map_round4_sub (models.map fun m => umc u m)
      rwa [List.length_map] at this
    have hsplit : (models.map fun m => round4 (umc u m)).sum
          + ((t.map fun u' => models.map fun m => round4 (umc u' m)).map List.sum).sum
          - ((models.map fun m => umc u m).sum + (t.map fun u' => (models.map fun m => umc u' m).sum).sum)
        = ((models.map fun m => round4 (umc u m)).sum - (models.map fun m => umc u m).sum)
          + (((t.map fun u' => models.map fun m => round4 (umc u' m)).map List.sum).sum
              - (t.map fun u' => (models.map fun m => umc u' m).sum).sum) := by
      ring
    rw [hsplit]
    calc |((models.map fun m => round4 (umc u m)).sum - (models.map fun m => umc u m).sum)
        + (((t.map fun u' => models.map fun m => round4 (umc u' m)).map List.sum).sum
            - (t.map fun u' => (models.map fun m => umc u' m).sum).sum)|
        ≤ |(models.map fun m => round4 (umc u m)).sum - (models.map fun m => umc u m).sum|
          + |((t.map fun u' => models.map fun m => round4 (umc u' m)).map List.sum).sum
              - (t.map fun u' => (models.map fun m => umc u' m).sum).sum| := abs_add _ _
      _ ≤ (models.length : ℚ) / 20000 + (t.length : ℚ) * (models.length : ℚ) / 20000 :=
          add_le_add h1 ih
      _ = ((t.length : ℚ) + 1) * (models.length : ℚ) / 20000 := by ring
      _ = (((t.length + 1 : ℕ) : ℚ)) * (models.length : ℚ) / 20000 := by push_cast; ring
      _ = ((t.length + 1 : ℕ) : ℚ) * (models.length : ℚ) / 20000 := rfl

/-! ### Claim C1 -/

/-- Claim C1 refuted at a concrete input: with one user, three models
and every cost `6/100000`, the first row of rounded cells sums to
`3/10000` while the `user_totals` entry (the un-rounded row sum
`18/100000`, rounded once) is `2/10000`; moreover the sum of all cells
differs from the reported total cost by `12/100000 > 1/10000`. -/
theorem cost_matrix_claim_cex :
    ¬ (((cmData (fun _ _ => (6 : ℚ)/100000) ["u"] ["a", "b", "c"]).getD 0 []).sum
        = (cmUserTotals (fun _ _ => (6 : ℚ)/100000) ["u"] ["a", "b", "c"]).getD 0 0) ∧
    |cmGrandSum (fun _ _ => (6 : ℚ)/100000) ["u"] ["a", "b", "c"]
        - umcTotal (fun _ _ => (6 : ℚ)/100000) ["u"] ["a", "b", "c"]| > 1/10000 := by
  constructor
  · rw [cmData_row _ _ _ _ (by norm_num), cmUserTotals_get _ _ _ _ (by norm_num)]
    simp only [List.map_cons, List.map_nil, List.sum_cons, List.sum_nil, round4, round_eq]
    norm_num
  · simp only [cmGrandSum, umcTotal, cmData, List.map_cons, List.map_nil, List.sum_cons,
      List.sum_nil, round4, round_eq]
    rw [abs_of_pos (by norm_num)]
    norm_num

/-- C1 (amended): in the matrix built by `cost_matrix_api`, every
column sum of the rounded cells equals the corresponding `model_totals`
entry exactly; every row sum of the rounded cells is within
`(numModels + 1) * 5e-5` of the corresponding `user_totals` entry
(which rounds the un-rounded row sum, so exact equality can fail); and
the sum of all cells is within `numUsers * numModels * 5e-5` of the
reported total cost (which can exceed `1e-4`). -/
theorem cost_matrix_totals_amended (umc : String → String → ℚ) (users models : List String)
    (T : ℚ) (hT : T = umcTotal umc users models) :
    (∀ j, j < models.length →
      colSum (cmData umc users models) j = (cmModelTotals umc users models).getD j 0) ∧
    (∀ i, i < users.length →
      |((cmData umc users models).getD i []).sum
          - (cmUserTotals umc users models).getD i 0|
        ≤ ((models.length : ℚ) + 1) / 20000) ∧
    |cmGrandSum umc users models - T|
      ≤ (users.length : ℚ) * (models.length : ℚ) / 20000 := by
  refine ⟨fun j hj => ?_, fun i hi => row_sum_err umc users models i hi, ?_⟩
  · rw [cmModelTotals_get _ _ _ _ hj]
    exact (round4_sum_fix _ (col_entry_int umc users models j)).symm
  · rw [hT]
    exact grand_sum_err umc users models

/-- Witness for `cost_matrix_totals_amended` at a concrete one-user,
one-model cost map. -/
theorem cost_matrix_totals_amended_witness :
    colSum (cmData (fun _ _ => (1 : ℚ)/10000) ["u"] ["a"]) 0
        = (cmModelTotals (fun _ _ => (1 : ℚ)/10000) ["u"] ["a"]).getD 0 0 ∧
    |((cmData (fun _ _ => (1 : ℚ)/10000) ["u"] ["a"]).getD 0 []).sum
        - (cmUserTotals (fun _ _ => (1 : ℚ)/10000) ["u"] ["a"]).getD 0 0|
      ≤ (((["a"] : List String).length : ℚ) + 1) / 20000 ∧
    |cmGrandSum (fun _ _ => (1 : ℚ)/10000) ["u"] ["a"]
        - umcTotal (fun _ _ => (1 : ℚ)/10000) ["u"] ["a"]|
      ≤ ((["u"] : List String).length : ℚ) * ((["a"] : List String).length : ℚ) / 20000 := by
  have h := cost_matrix_totals_amended (fun _ _ => (1 : ℚ)/10000) ["u"] ["a"]
    (umcTotal (fun _ _ => (1 : ℚ)/10000) ["u"] ["a"]) rfl
  exact ⟨h.1 0 (by norm_num), h.2.1 0 (by norm_num), h.2.2⟩

/-! ### Claim C5 -/

/-- An id whose canonical form is clean is a fixed point of
`stripModelId`. -/
lemma stripModelId_fixed (s : String) (h : isCleanModelId s = true) : stripModelId s = s := by
  unfold isCleanModelId at h
  rw [Bool.and_eq_true] at h
  obtain ⟨h1, h2⟩ := h
  have hn : findSplit (":inference-profile/".data) s.data = none := by
    unfold subStrL at h1
    cases hfs : findSplit (":inference-profile/".data) s.data with
    | none => rfl
    | some p => rw [hfs] at h1; simp at h1
  unfold stripModelId stripArnL stripRegionL
  rw [hn]
  cases hfd : findSplit ['.'] s.data with
  | none =>
    simp only [hfd]
  | some p =>
    obtain ⟨pre, post⟩ := p
    rw [hfd] at h2
    simp only [Bool.not_eq_true'] at h2
    simp only [hfd, h2, Bool.false_eq_true, if_false]

/-- Claim C5 refuted at a concrete input: canonicalization is not
idempotent on `"us.ap.x"` — the first pass strips `us.`, the second
strips `ap.` as well. -/
theorem strip_model_id_not_idempotent :
    stripModelId (stripModelId "us.ap.x") ≠ stripModelId "us.ap.x" := by
  decide

/-- C5 (amended): model-id canonicalization is idempotent on every
model id whose canonical form is clean — contains no
`:inference-profile/` marker and does not start with a region prefix
(`us`/`global`/`eu`/`ap`) before the first dot.  (In general a second
pass can strip a further region prefix or ARN marker, as the
counterexample `"us.ap.x"` shows.) -/
theorem strip_model_id_idempotent_on_clean (m : String)
    (h : isCleanModelId (stripModelId m) = true) :
    stripModelId (stripModelId m) = stripModelId m :=
  stripModelId_fixed (stripModelId m) h

/-- Witness for `strip_model_id_idempotent_on_clean` at the ARN-wrapped
Sonnet 4.5 id. -/
theorem strip_model_id_idempotent_on_clean_witness :
    isCleanModelId (stripModelId "arn:aws:bedrock:us-west-2:405644541454:inference-profile/us.anthropic.claude-sonnet-4-5-20250929-v1:0") = true ∧
    stripModelId (stripModelId "arn:aws:bedrock:us-west-2:405644541454:inference-profile/us.anthropic.claude-sonnet-4-5-20250929-v1:0")
      = stripModelId "arn:aws:bedrock:us-west-2:405644541454:inference-profile/us.anthropic.claude-sonnet-4-5-20250929-v1:0" :=
  ⟨by decide, strip_model_id_idempotent_on_clean _ (by decide)⟩

/-! ### Claim C6 -/

/-- Claim C6 evaluated on the code: for
`anthropic.claude-3-5-haiku-20241022-v1:0` the display-name function
returns `"Claude 3 5 Haiku"` — not the `"Claude 3.5 Haiku"` the claim
(and the function's own docstring) promise, because hyphens turn into
spaces and nothing reassembles `3 5` into `3.5`; the `[1m]` half of the
claim does hold: the display name of the `[1m]`-marked Sonnet id ends
with `(1m)`. -/
theorem display_name_haiku_eval :
    get_model_display_name "anthropic.claude-3-5-haiku-20241022-v1:0" = "Claude 3 5 Haiku" ∧
    get_model_display_name "anthropic.claude-3-5-haiku-20241022-v1:0" ≠ "Claude 3.5 Haiku" ∧
    ("(1m)".data).isSuffixOf
      (get_model_display_name "anthropic.claude-sonnet-4-5-20250929-v1:0[1m]").data = true := by
  refine ⟨by decide, by decide, by decide⟩

/-! ### Claim C7 -/

/-- The per-key two-test loop body of `get_model_pricing` equals the
spec's single either-direction test, key by key. -/
lemma firstMatchPricing_eq_spec (clean raw : String) (l : List (String × PricingEntry)) :
    firstMatchPricing clean raw l = pricingSpecMatch clean raw l := by
  induction l with
  | nil => rfl
  | cons kv rest ih =>
    obtain ⟨k, v⟩ := kv
    unfold firstMatchPricing pricingSpecMatch
    cases hA : subStr k clean <;> cases hB : subStr clean k <;>
      cases hC : subStr k raw <;> cases hD : subStr raw k <;>
      simp [hA, hB, hC, hD, ih]

/-- Claim C7: the pricing lookup follows exactly the spec's cascade —
exact match on the canonicalized id, exact match on the raw id,
substring match in either direction against the table keys in stable
table order (first match wins), and finally the zero-priced default
entry; as a total function it never raises, and when every stage
misses, the result is `{input := 0, output := 0}`. -/
theorem pricing_lookup_follows_spec (m : String) :
    get_model_pricing m = get_model_pricing_spec m ∧
    (BEDROCK_PRICING.lookup (stripModelId m) = none →
      BEDROCK_PRICING.lookup m = none →
      pricingSpecMatch (stripModelId m) m BEDROCK_PRICING = none →
      get_model_pricing m = ⟨0, 0⟩) := by
  constructor
  · simp only [get_model_pricing, get_model_pricing_spec, firstMatchPricing_eq_spec]
  · intro h1 h2 h3
    simp only [get_model_pricing, firstMatchPricing_eq_spec, h1, h2, h3]

/-- Witness for `pricing_lookup_follows_spec` at a model id absent from
the pricing table. -/
theorem pricing_lookup_follows_spec_witness :
    get_model_pricing "zzz" = ⟨0, 0⟩ :=
  (pricing_lookup_follows_spec "zzz").2 (by decide) (by decide) (by decide)

/-! ### Claim C8 -/

/-- Claim C8: user-identity normalization strips a leading `bedrock-`
prefix, maps a primary key to itself and a listed alias to its primary
key (`bedrock-aider` and `bedrock-peterdir` both map to `peterdir`
under the alias table `{peterdir: [aider, dirkcli]}`), and collapses
any remaining unresolvable name containing `:` or starting with `arn`
to the sentinel `Other`. -/
theorem normalize_username_spec :
    normalize_username "bedrock-aider" = "peterdir" ∧
    normalize_username "bedrock-peterdir" = "peterdir" ∧
    (∀ raw, (USER_MAP.lookup (stripBedrock raw)).isSome = false →
      findAliasOwner (stripBedrock raw) USER_MAP = none →
      ((stripBedrock raw).data.contains ':'
        || ("arn".data).isPrefixOf (stripBedrock raw).data) = true →
      normalize_username raw = "Other") := by
  refine ⟨by decide, by decide, fun raw h1 h2 h3 => ?_⟩
  unfold normalize_username
  simp only [h1, h2, h3, Bool.false_eq_true, if_false, if_true]

/-- Witness for `normalize_username_spec` at a raw ARN identity. -/
theorem normalize_username_spec_witness :
    normalize_username "arn:aws:iam::123456789012:role/x" = "Other" :=
  normalize_username_spec.2.2 "arn:aws:iam::123456789012:role/x"
    (by decide) (by decide) (by decide)

/-! ### Claim C2 -/

/-- Claim C2 evaluated on the code: `get_bedrock_usage` never consults
`_query_cache` — even when a second fetch for the same window arrives
within the TTL, it starts a fresh external query with a new query id,
and the cache passes through untouched (so there is never a cached
entry to reuse or expire). -/
theorem fetch_starts_new_query_within_ttl (days : Nat) (now1 now2 : ℚ) (st : FetchState)
    (_httl : now2 - now1 < cacheTtl) :
    (getBedrockUsageQueryStart days now1 st).1 = st.next_query_id ∧
    (getBedrockUsageQueryStart days now2 (getBedrockUsageQueryStart days now1 st).2).1
      = st.next_query_id + 1 ∧
    (getBedrockUsageQueryStart days now2 (getBedrockUsageQueryStart days now1 st).2).1
      ≠ (getBedrockUsageQueryStart days now1 st).1 ∧
    (getBedrockUsageQueryStart days now2 (getBedrockUsageQueryStart days now1 st).2).2.cache
      = st.cache := by
  refine ⟨rfl, rfl, ?_, rfl⟩
  exact Nat.succ_ne_self st.next_query_id

/-- Witness for `fetch_starts_new_query_within_ttl`: two fetches for a
7-day window, one second apart, on an empty cache. -/
theorem fetch_starts_new_query_within_ttl_witness :
    (getBedrockUsageQueryStart 7 0 ⟨[], 0⟩).1 = (0 : Nat) ∧
    (getBedrockUsageQueryStart 7 1 (getBedrockUsageQueryStart 7 0 ⟨[], 0⟩).2).1 = (0 : Nat) + 1 ∧
    (getBedrockUsageQueryStart 7 1 (getBedrockUsageQueryStart 7 0 ⟨[], 0⟩).2).1
      ≠ (getBedrockUsageQueryStart 7 0 ⟨[], 0⟩).1 ∧
    (getBedrockUsageQueryStart 7 1 (getBedrockUsageQueryStart 7 0 ⟨[], 0⟩).2).2.cache = [] :=
  fetch_starts_new_query_within_ttl 7 0 1 ⟨[], 0⟩ (by norm_num [cacheTtl])

/-! ### Claim C4 -/

/-- Interleaving two traces adds their per-key query-start counts. -/
lemma interleaving_countStarts (key : String) {xs ys zs : List CacheOp}
    (h : Interleaving xs ys zs) :
    countStarts key zs = countStarts key xs + countStarts key ys := by
  induction h with
  | nil => rfl
  | left _ ih =>
    simp only [countStarts, List.countP_cons] at ih ⊢
    omega
  | right _ ih =>
    simp only [countStarts, List.countP_cons] at ih ⊢
    omega

/-- Claim C4 evaluated on the code: `get_bedrock_usage` performs no
cache read, no cache write and no locking — its shared-state trace is a
single unconditional `start_query`.  Hence in every interleaving of two
concurrent fetches for the same window key, exactly two external
queries are started for that key, refuting the at-most-one-in-flight
guarantee. -/
theorem concurrent_fetch_two_starts (days : Nat) (zs : List CacheOp)
    (h : Interleaving (fetchOps days) (fetchOps days) zs) :
    countStarts (getCacheKey days) zs = 2 := by
  rw [interleaving_countStarts (getCacheKey days) h]
  simp [fetchOps, countStarts, List.countP_cons]

/-- Witness for `concurrent_fetch_two_starts`: the interleaving that
runs the first caller, then the second. -/
theorem concurrent_fetch_two_starts_witness :
    countStarts (getCacheKey 7)
      [CacheOp.startQuery (getCacheKey 7), CacheOp.startQuery (getCacheKey 7)] = 2 :=
  concurrent_fetch_two_starts 7 _ (Interleaving.left (Interleaving.right Interleaving.nil))

/-! ### Claim C3 -/

/-- Claim C3: for every well-formed result record, the cost folded into
each of the five cost aggregates — per-user, per-model, per-day,
per-user-per-model and per-user-per-model-per-day — is exactly
`(inputTokens + cacheWriteTokens)/1e6 * price.input
 + outputTokens/1e6 * price.output`, where `price` is the pricing entry
resolved for the record's (raw) model id. -/
theorem record_cost_contribution (st : AggState) (r : ResultRow)
    (ua mid d u cm : String) (p : PricingEntry) (cost : ℚ)
    (inv itok cw otok : Int)
    (hua : fieldsOf r "identity.arn" = some ua) (hua2 : ua ≠ "Unknown")
    (hmid : fieldsOf r "modelId" = some mid) (hmid2 : mid ≠ "Unknown")
    (hd : (fieldsOf r "date_day").getD "Unknown" = d)
    (hinv : getIntField r "invocations" = some inv)
    (hit : getIntField r "total_input_tokens" = some itok)
    (hcw : getIntField r "total_cache_write_tokens" = some cw)
    (hot : getIntField r "total_output_tokens" = some otok)
    (hu : u = normalize_username (extract_raw_user ua))
    (hcm : cm = stripModelId mid)
    (hp : p = get_model_pricing mid)
    (hcost : cost = (((itok + cw : ℤ) : ℚ) / 1000000) * p.input
      + (((otok : ℤ) : ℚ) / 1000000) * p.output) :
    (processRecord st r).user_costs u = st.user_costs u + cost ∧
    (processRecord st r).model_costs cm = st.model_costs cm + cost ∧
    (processRecord st r).daily_costs d = st.daily_costs d + cost ∧
    (processRecord st r).user_model_costs u cm = st.user_model_costs u cm + cost ∧
    (processRecord st r).user_model_daily_costs u cm d
      = st.user_model_daily_costs u cm d + cost := by
  subst hu hcm hp hcost hd
  simp only [processRecord, hua, hmid, hinv, hit, hcw, hot, Option.getD_some]
  rw [if_neg (by simp [hua2, hmid2])]
  simp

/-- Witness for `record_cost_contribution` at `rScenario`: the
Claude 3 Haiku pricing entry is `{1/4, 5/4}` per million, so
`1000` input tokens and `500` output tokens cost
`1000/1e6 * 1/4 + 500/1e6 * 5/4 = 7/8000 = 0.000875` dollars in every
cost aggregate. -/
theorem record_cost_contribution_witness :
    (processRecord initState rScenario).user_costs "peterdir"
      = initState.user_costs "peterdir" + 7/8000 ∧
    (processRecord initState rScenario).model_costs "anthropic.claude-3-haiku-20240307-v1:0"
      = initState.model_costs "anthropic.claude-3-haiku-20240307-v1:0" + 7/8000 ∧
    (processRecord initState rScenario).daily_costs "2025-01-01 00:00:00.000"
      = initState.daily_costs "2025-01-01 00:00:00.000" + 7/8000 ∧
    (processRecord initState rScenario).user_model_costs "peterdir"
        "anthropic.claude-3-haiku-20240307-v1:0"
      = initState.user_model_costs "peterdir" "anthropic.claude-3-haiku-20240307-v1:0"
        + 7/8000 ∧
    (processRecord initState rScenario).user_model_daily_costs "peterdir"
        "anthropic.claude-3-haiku-20240307-v1:0" "2025-01-01 00:00:00.000"
      = initState.user_model_daily_costs "peterdir" "anthropic.claude-3-haiku-20240307-v1:0"
          "2025-01-01 00:00:00.000" + 7/8000 :=
  record_cost_contribution initState rScenario
    "arn:aws:sts::123456789012:assumed-role/bedrock-aider/session"
    "us.anthropic.claude-3-haiku-20240307-v1:0"
    "2025-01-01 00:00:00.000" "peterdir" "anthropic.claude-3-haiku-20240307-v1:0"
    ⟨1/4, 5/4⟩ (7/8000) 10 1000 0 500
    (by decide) (by decide) (by decide) (by decide) (by decide) (by decide) (by decide)
    (by decide) (by decide) (by decide) (by decide) rfl (by norm_num)

/-! ### Claims C9 and C10: skipped records -/

/-- A record one of whose numeric fields fails `int(...)` leaves the
aggregation state unchanged (the `ValueError` is caught and the loop
continues). -/
lemma processRecord_skip_of_parse_fail (r : ResultRow)
    (h : getIntField r "invocations" = none ∨
      getIntField r "total_input_tokens" = none ∨
      getIntField r "total_cache_write_tokens" = none ∨
      getIntField r "total_output_tokens" = none) :
    ∀ st, processRecord st r = st := by
  intro st
  simp only [processRecord]
  split
  · rfl
  · cases h1 : getIntField r "invocations" <;>
      cases h2 : getIntField r "total_input_tokens" <;>
      cases h3 : getIntField r "total_cache_write_tokens" <;>
      cases h4 : getIntField r "total_output_tokens" <;>
      simp_all

/-- A record whose identity or model field is absent leaves the
aggregation state unchanged (the `Unknown` sentinel triggers the
`continue` before any accumulation). -/
lemma processRecord_skip_of_missing_id (r : ResultRow)
    (h : fieldsOf r "identity.arn" = none ∨ fieldsOf r "modelId" = none) :
    ∀ st, processRecord st r = st := by
  intro st
  simp only [processRecord]
  rcases h with h | h <;> simp [h]

/-- Removing a record that each step ignores does not change the fold. -/
lemma foldl_processRecord_skip {r : ResultRow} (h : ∀ st, processRecord st r = st)
    (init : AggState) (l1 l2 : List ResultRow) :
    List.foldl processRecord init (l1 ++ r :: l2)
      = List.foldl processRecord init (l1 ++ l2) := by
  rw [List.foldl_append, List.foldl_append, List.foldl_cons, h]

/-- Claim C9 refuted at a concrete input: `rMissingTok` is missing the
required numeric field `total_input_tokens`, yet it is not skipped —
`int(fields.get(..., 0))` silently reads the missing field as `0` and
the record is folded in, raising `user_invocations["alice"]` from `0`
to `10`. -/
theorem malformed_skip_cex :
    fieldsOf rMissingTok "total_input_tokens" = none ∧
    (processRecord initState rMissingTok).user_invocations "alice" = 10 ∧
    initState.user_invocations "alice" = 0 :=
  ⟨by decide, by decide, rfl⟩

/-- C9 (amended): a record with a present but non-numeric required
field (an `int(...)` `ValueError`) is skipped individually and the
aggregation of all other records continues unchanged; a record with a
missing numeric field, however, is not skipped — the field is silently
read as `0` and the record is folded in. -/
theorem malformed_nonnumeric_skipped (init : AggState) (l1 l2 : List ResultRow) (r : ResultRow)
    (h : getIntField r "invocations" = none ∨
      getIntField r "total_input_tokens" = none ∨
      getIntField r "total_cache_write_tokens" = none ∨
      getIntField r "total_output_tokens" = none) :
    List.foldl processRecord init (l1 ++ r :: l2)
      = List.foldl processRecord init (l1 ++ l2) :=
  foldl_processRecord_skip (processRecord_skip_of_parse_fail r h) init l1 l2

/-- Witness for `malformed_nonnumeric_skipped`: the record `rBadNum`
with `invocations = "abc"` is dropped from a fold between two
well-formed records. -/
theorem malformed_nonnumeric_skipped_witness :
    List.foldl processRecord initState ([rScenario] ++ rBadNum :: [rMissingTok])
      = List.foldl processRecord initState ([rScenario] ++ [rMissingTok]) :=
  malformed_nonnumeric_skipped initState [rScenario] [rMissingTok] rBadNum
    (Or.inl (by decide))

/-- Claim C10: a record whose identity field or model-id field is
absent (read back as the sentinel `Unknown`) is skipped before any
accumulation, so it contributes nothing to any aggregate — the whole
fold, `total_events` included, is as if the record were not there. -/
theorem unknown_identity_skipped (init : AggState) (l1 l2 : List ResultRow) (r : ResultRow)
    (h : fieldsOf r "identity.arn" = none ∨ fieldsOf r "modelId" = none) :
    List.foldl processRecord init (l1 ++ r :: l2)
      = List.foldl processRecord init (l1 ++ l2) :=
  foldl_processRecord_skip (processRecord_skip_of_missing_id r h) init l1 l2

/-- Witness for `unknown_identity_skipped`: the record `rNoIdentity`
(no `identity.arn` field) is dropped from a singleton fold. -/
theorem unknown_identity_skipped_witness :
    List.foldl processRecord initState ([] ++ rNoIdentity :: [])
      = List.foldl processRecord initState ([] ++ []) :=
  unknown_identity_skipped initState [] [] rNoIdentity (Or.inl (by decide))

end Dashboards
